import Mathlib

/-!
# Verification of the vv-dsp differential validation harness

Shallow embedding of the Python validation drivers under `src/python/`
(`common.py`, `test_stats.py`, `test_czt.py`, `test_dct.py`, `test_fft.py`,
`test_filters.py`, `test_framing.py`, `test_resampler.py`, `test_stft.py`).

Modelling conventions:
* Python floats are embedded as exact rationals `ℚ` (complex samples as `ℂ`
  for the transform mathematics); the claims settled here concern exact
  dataflow, parameter derivation and reference formulas, not floating-point
  rounding of the host arithmetic.
* The process environment is a lookup `String → Option String`
  (`os.getenv` / `os.environ.get`).
* A line of oracle output, after splitting on the field separator, is a
  `List (Option ℚ)`: `some q` is a field that Python `float()` accepts and
  `none` is a non-numeric field.
-/

namespace VVDSP

/-! ## Configuration Provider (`common.py`) -/

/-- The process environment, as seen through `os.getenv`. -/
def Env : Type := String → Option String

/-- The case-insensitive truthy token set of `common._env_bool`. -/
def boolTokens : List String := ["1", "true", "yes", "on"]

/-- ASCII lowercase of one character (Python `str.lower` on the ASCII
values the harness's variables use). -/
def charLower (c : Char) : Char :=
  if 'A' ≤ c ∧ c ≤ 'Z' then Char.ofNat (c.toNat + 32) else c

/-- Embeds Python `v.lower()` (ASCII). -/
def strLower (s : String) : String := ⟨s.data.map charLower⟩

/-- Embeds `common._env_bool`: absent variable gives the default, a present
value is lowercased and tested against the token set. -/
def env_bool (env : Env) (name : String) (default : Bool) : Bool :=
  match env name with
  | none => default
  | some v => decide (strLower v ∈ boolTokens)

/-- Digit accumulator used by `parseFloat`: consumes leading decimal digits,
returning the accumulated value, the number of digits consumed and the rest. -/
def readDigits (acc count : ℕ) : List Char → ℕ × ℕ × List Char
  | [] => (acc, count, [])
  | c :: cs =>
      if c.isDigit then readDigits (10 * acc + (c.toNat - 48)) (count + 1) cs
      else (acc, count, c :: cs)

/-- Modelled from the spec: Python `float(...)` on plain decimal and
scientific literals (optional sign, digits with optional decimal point,
optional exponent). `none` is an unparsable string (Python raises
`ValueError`). -/
def parseFloat (s : String) : Option ℚ :=
  let cs0 := s.data
  let signed : ℚ × List Char :=
    match cs0 with
    | '+' :: r => (1, r)
    | '-' :: r => (-1, r)
    | r => (1, r)
  let sgn := signed.1
  let (ip, ic, cs1) := readDigits 0 0 signed.2
  let fractional : ℕ × ℕ × List Char :=
    match cs1 with
    | '.' :: r => readDigits 0 0 r
    | r => (0, 0, r)
  let (fp, fc, cs2) := fractional
  if ic + fc = 0 then none
  else
    let mant : ℚ := sgn * ((ip : ℚ) + (fp : ℚ) / 10 ^ fc)
    match cs2 with
    | [] => some mant
    | e :: r =>
        if e = 'e' ∨ e = 'E' then
          let esigned : ℤ × List Char :=
            match r with
            | '+' :: r2 => (1, r2)
            | '-' :: r2 => (-1, r2)
            | r2 => (1, r2)
          let (ev, ec, r2) := readDigits 0 0 esigned.2
          if ec = 0 ∨ r2 ≠ [] then none
          else some (mant * 10 ^ (esigned.1 * (ev : ℤ)))
        else none

/-- Embeds `common._env_float`: absent variable gives the default, an
unparsable value falls back to the default (the `try`/`except` around
`float(v)`), a parsable value is returned parsed. -/
def env_float (env : Env) (name : String) (default : ℚ) : ℚ :=
  match env name with
  | none => default
  | some v => (parseFloat v).getD default

/-- Embeds `common.SKIP_CODE`. -/
def SKIP_CODE : ℕ := 77

/-- Embeds `common.read_tolerances`: reads `VV_PY_RTOL` and `VV_PY_ATOL`
through `_env_float` (the second `float(...)` coercion in the source is the
identity on the already-numeric results). -/
def read_tolerances (env : Env) (default_rtol default_atol : ℚ) : ℚ × ℚ :=
  (env_float env "VV_PY_RTOL" default_rtol, env_float env "VV_PY_ATOL" default_atol)

/-- Embeds `common.is_verbose`. -/
def is_verbose (env : Env) (default : Bool) : Bool :=
  env_bool env "VV_PY_VERBOSE" default

/-! ## Text Codec -/

/-- The Python exceptions the codec can raise. -/
inductive PyError : Type
  | valueError : PyError
  | indexError : PyError
deriving DecidableEq

/-- Embeds `parse_complex_lines` of `test_czt.py` (the same helper appears in
`test_fft.py`). A line is modelled after splitting on `','`: each field is
`some q` when Python `float()` accepts it and `none` otherwise. Faithful to
the source order of failure: `float` raises `ValueError` on any non-numeric
field; `np.array(..., dtype=float)` raises `ValueError` on ragged rows;
column extraction `arr[:, 0] + 1j * arr[:, 1]` raises `IndexError` when the
array is not two-dimensional with at least two columns. Rows wider than two
columns are accepted and the extra columns are ignored. (The shape tests are
stated on the pre-conversion rows; elementwise `float` conversion preserves
row lengths, and in the success branch every row is non-empty, so the first
two converted fields are `(r.headI).getD 0` and `((r.drop 1).headI).getD 0`.) -/
def parse_complex_lines : List (List (Option ℚ)) → Except PyError (List (ℚ × ℚ))
  | [] => .error .indexError
  | l0 :: rest =>
      if (l0 :: rest).any (fun ln => ln.any Option.isNone) then .error .valueError
      else if ¬ (rest.all (fun r => r.length = l0.length)) then .error .valueError
      else if l0.length < 2 then .error .indexError
      else .ok ((l0 :: rest).map
        (fun r => ((r.headI).getD 0, ((r.drop 1).headI).getD 0)))

/-- The error condition under which `parse_complex_lines` raises: some
non-numeric field, no lines at all, ragged rows, or fewer than two columns. -/
def parseRaises (lines : List (List (Option ℚ))) : Prop :=
  (∃ ln ∈ lines, ∃ f ∈ ln, f = none) ∨ lines = [] ∨
    (∃ ln ∈ lines, ln.length ≠ lines.headI.length) ∨ lines.headI.length < 2

instance (lines : List (List (Option ℚ))) : Decidable (parseRaises lines) := by
  unfold parseRaises
  infer_instance

/-- Embeds the stats driver's decoder
`y = np.fromstring(proc.stdout.decode(), sep='\n')` (`test_stats.py`,
line 51). `np.fromstring` is an external numpy routine (not in this
repository); in text mode its documented behaviour is greedy: it parses
tokens while they are numeric and **stops silently** at the first token
`float` cannot parse (numpy emits a `DeprecationWarning`, not an
exception), returning the values parsed so far. A token is `some q` when
numeric and `none` otherwise, as for `parse_complex_lines`. -/
def np_fromstring : List (Option ℚ) → List ℚ
  | [] => []
  | none :: _ => []
  | some q :: rest => q :: np_fromstring rest

/-! ## Comparator -/

/-- Embeds the element-wise `numpy.testing.assert_allclose` criterion
`|actual − desired| ≤ atol + rtol·|desired|` on two same-length sequences
(the first argument is `actual`, the second `desired`). -/
def allclose (actual desired : List ℚ) (rtol atol : ℚ) : Bool :=
  (actual.zip desired).all (fun p => decide (|p.1 - p.2| ≤ atol + rtol * |p.2|))

/-! ## Autocorrelation reference (`test_stats.py`) -/

/-- Embeds `np.mean` on a list of samples (sum divided by length). -/
def npMean (l : List ℚ) : ℚ := l.sum / (l.length : ℚ)

/-- Embeds `ref` of `test_stats.py`:
`ref = np.array([np.mean(x[:len(x)-k]*x[k:]) for k in range(len(x))])`,
the lag-`k` autocorrelation as the mean of the elementwise product of the
two overlap slices (an array of length `len(x) − k`). -/
def stats_ref (x : List ℚ) : List ℚ :=
  (List.range x.length).map
    (fun k => npMean ((x.take (x.length - k)).zipWith (· * ·) (x.drop k)))

/-- The claim's reading of the reference: the biased estimator
`r[k] = (1/N)·Σᵢ x[i]·x[i+k]`, with divisor `N` at every lag. Stated from
the spec's words, for comparison against `stats_ref`. -/
def biasedAutocorr (x : List ℚ) : List ℚ :=
  (List.range x.length).map
    (fun k => (∑ i in Finset.range (x.length - k), x.getD i 0 * x.getD (i + k) 0) /
      (x.length : ℚ))

/-! ## Resampler driver (`test_resampler.py`) -/

/-- Embeds `np.clip(v, lo, hi)` on integers. -/
def npClip (v lo hi : ℤ) : ℤ := max lo (min v hi)

/-- Embeds the expected-length computation of `test_resampler.py`:
`expect = int(np.floor((len(x) - 1) * 2.0) + 1)` for the `2/1` ratio. -/
def resampleExpect (n : ℕ) : ℤ := 2 * ((n : ℤ) - 1) + 1

/-- Embeds the reference construction of `test_resampler.py` for ratio `2/1`:
linear interpolation of `x` at fractional source indices `j/2`, with both
neighbour indices clamped to the signal boundaries. -/
def resampleRef (x : List ℚ) : List ℚ :=
  let n := x.length
  (List.range (resampleExpect n).toNat).map (fun (j : ℕ) =>
    let idx : ℚ := (j : ℚ) / 2
    let i0 : ℤ := ⌊idx⌋
    let frac : ℚ := idx - (i0 : ℚ)
    let i0c : ℤ := npClip i0 0 ((n : ℤ) - 1)
    let i1c : ℤ := npClip (i0 + 1) 0 ((n : ℤ) - 1)
    (1 - frac) * x.getD i0c.toNat 0 + frac * x.getD i1c.toNat 0)

/-- Embeds the comparison step of `test_resampler.py`:
`L = min(len(ref), len(y)); assert_allclose(y[:L], ref[:L], ...)` — only the
first `L` samples are compared, the subject output length is not checked. -/
def resampleCheck (y x : List ℚ) (rtol atol : ℚ) : Bool :=
  let ref := resampleRef x
  let L := min ref.length y.length
  allclose (y.take L) (ref.take L) rtol atol

/-! ## Chirp Z-transform driver (`test_czt.py`) -/

/-- The chirp-Z parameter bundle the driver passes (to the subject via
`--N --M --Wre --Wim --Are --Aim` and to `scipy.signal.czt` as `m`, `w`,
`a`; both paths receive the same values: the driver computes them once).
`A` is the exact rational pair `(Are, Aim)`; `W = e^{i·ang}` is recorded by
the exact coefficient `angOverPi = ang/π`. -/
structure CZTParams where
  N : ℕ
  M : ℕ
  Are : ℚ
  Aim : ℚ
  angOverPi : ℚ
deriving DecidableEq

/-- Embeds the DFT-equivalence parameter derivation of `test_czt.py`:
`ang = -2π/args.n; Wre, Wim = cos ang, sin ang; Are, Aim = 1, 0`, with
`--N args.n` and `--M args.m` (note `M` is the separate `-m` argument, not
tied to `-n`). -/
def czt_params (n m : ℕ) : CZTParams :=
  { N := n, M := m, Are := 1, Aim := 0, angOverPi := -2 / (n : ℚ) }

/-- The `argparse` default of `-n` in `test_czt.py`. -/
def czt_default_n : ℕ := 32

/-- The `argparse` default of `-m` in `test_czt.py`. -/
def czt_default_m : ℕ := 32

/-- Modelled from the spec: the general chirp-Z oracle (`scipy.signal.czt`,
an external reference not in this repository), evaluating
`X[k] = Σₙ x[n]·A^{−n}·W^{n·k}` for `k = 0..M−1`. -/
def czt {K : Type} [Field K] (x : List K) (M : ℕ) (W A : K) : List K :=
  (List.range M).map
    (fun k => ∑ n in Finset.range x.length, x.getD n 0 * A⁻¹ ^ n * W ^ (n * k))

/-- The discrete Fourier transform with an explicit twiddle character `e`:
`X[k] = Σₙ x[n]·e(n·k)`. Modelled from the spec: the plain N-point DFT
(`np.fft.fft`, an external reference not in this repository) is
`dftc x (fun m => Complex.exp (-2πi·m/N))` with `N = x.length`. -/
def dftc {K : Type} [Field K] (x : List K) (e : ℕ → K) : List K :=
  (List.range x.length).map
    (fun k => ∑ n in Finset.range x.length, x.getD n 0 * e (n * k))

/-! ## Filter driver (`test_filters.py`) -/

/-- A subject process invocation: executable and argument list. -/
structure Invocation where
  exe : String
  args : List String
deriving DecidableEq

/-- Embeds the coefficient-dump invocation of `test_filters.py` (line 46):
`vv_dsp_dump_fir_coeffs --num-taps 33 --cutoff 0.25 --win hann`. Its parsed
output is the coefficient vector the reference path filters with. -/
def fir_dump_invocation : Invocation :=
  { exe := "vv_dsp_dump_fir_coeffs",
    args := ["--num-taps", "33", "--cutoff", "0.25", "--win", "hann"] }

/-- Embeds the subject FIR invocation of `test_filters.py` (line 52): the
filter binary receives the design parameters and the input-signal file; it
does not receive the dumped coefficient vector. -/
def fir_subject_invocation (n : ℕ) : Invocation :=
  { exe := "fir_bin",
    args := ["--num-taps", "33", "--cutoff", "0.25", "--win", "hann",
             "--n", toString n, "--infile", "tmp_fir_in.txt"] }

/-- The ordered process invocations the FIR half of `test_filters.py`
performs. -/
def fir_driver_invocations (n : ℕ) : List Invocation :=
  [fir_dump_invocation, fir_subject_invocation n]

/-- Scans an argument list for `flag` and returns the following argument. -/
def lookupFlag (flag : String) : List String → Option String
  | [] => none
  | a :: rest => if a = flag then rest.head? else lookupFlag flag rest

/-- One step of `scipy.signal.lfilter` (transfer-function recursion):
given the numerator `b`, denominator `a`, the already-consumed inputs
(newest first) and outputs (newest first), consume the remaining inputs. -/
def lfilterGo (b a : List ℚ) : List ℚ → List ℚ → List ℚ → List ℚ
  | _, yrev, [] => yrev.reverse
  | xrev, yrev, xn :: rest =>
      let xrev' := xn :: xrev
      let yn : ℚ :=
        ((∑ k in Finset.range b.length, b.getD k 0 * xrev'.getD k 0) -
         (∑ k in Finset.range (a.length - 1), a.getD (k + 1) 0 * yrev.getD k 0)) /
        a.getD 0 1
      lfilterGo b a xrev' (yn :: yrev) rest

/-- Modelled from the spec: `scipy.signal.lfilter(b, a, x)` (external
reference not in this repository), the rational transfer-function recursion
`a[0]·y[n] = Σₖ b[k]·x[n−k] − Σ_{k≥1} a[k]·y[n−k]`. -/
def lfilter (b a x : List ℚ) : List ℚ := lfilterGo b a [] [] x

/-- Direct convolution-form FIR filtering: `y[n] = Σₖ b[k]·x[n−k]`. -/
def lfilterFIR (b x : List ℚ) : List ℚ :=
  (List.range x.length).map
    (fun n => ∑ k in Finset.range b.length,
      if k ≤ n then b.getD k 0 * x.getD (n - k) 0 else 0)

/-- Embeds `y_ref = lfilter(h, [1.0], x)` of `test_filters.py` (line 59):
the reference filters the input with the dumped coefficient vector `h`. -/
def fir_reference (h x : List ℚ) : List ℚ := lfilter h [1] x

/-! ## Framing driver (`test_framing.py`) -/

/-- Embeds `n_frames_librosa` of `test_framing.py::test_get_num_frames`:
centered mode is `int(np.ceil(signal_len / hop_len))`, non-centered mode is
`0` when `signal_len < frame_len` and `1 + (signal_len − frame_len) //
hop_len` otherwise. -/
def n_frames_librosa (signal_len frame_len hop_len : ℕ) (center : Bool) : ℕ :=
  if center then (⌈(signal_len : ℚ) / (hop_len : ℚ)⌉).toNat
  else if signal_len < frame_len then 0
  else 1 + (signal_len - frame_len) / hop_len

/-- One row of the `test_cases` table of `test_get_num_frames`. -/
structure FrameCase where
  signal_len : ℕ
  frame_len : ℕ
  hop_len : ℕ
  center : Bool
  expected_non_centered : ℕ
  expected_centered : ℕ
deriving DecidableEq

/-- Embeds the `test_cases` table of `test_get_num_frames`. -/
def num_frames_test_cases : List FrameCase :=
  [⟨1024, 256, 128, false, 7, 8⟩, ⟨1024, 256, 128, true, 7, 8⟩,
   ⟨1000, 512, 256, false, 2, 4⟩, ⟨1000, 512, 256, true, 2, 4⟩,
   ⟨100, 256, 128, false, 0, 1⟩, ⟨100, 256, 128, true, 0, 1⟩]

/-! ## Driver exit codes -/

/-- Embeds the exit behaviour of `test_stats.py`: exit `SKIP_CODE` when
`ensure_numpy_scipy()` fails; otherwise, when the subject process returns a
non-zero code, `sys.exit(proc.returncode)` propagates that code unchanged;
otherwise the `assert_allclose` verdict gives 0 or 1 (uncaught
`AssertionError`). -/
def stats_exit (deps : Bool) (subject_rc : ℕ) (cmp_ok : Bool) : ℕ :=
  if deps = false then SKIP_CODE
  else if subject_rc ≠ 0 then subject_rc
  else if cmp_ok then 0 else 1

/-- Embeds the exit behaviour of `test_czt.py` (identically shaped:
`test_fft.py`, `test_filters.py`, `test_resampler.py`, `test_stft.py`):
exit `SKIP_CODE` when `ensure_numpy_scipy()` fails; a failing subject
process raises `CalledProcessError` through `run_cmd(check=True)`, a
malformed output line raises in parsing, and a tolerance violation raises
`AssertionError` — each an uncaught exception, so the interpreter exits 1;
otherwise 0. -/
def czt_exit (deps subject_ok parse_ok cmp_ok : Bool) : ℕ :=
  if deps = false then SKIP_CODE
  else if subject_ok = false then 1
  else if parse_ok = false then 1
  else if cmp_ok then 0 else 1

/-- Embeds the exit behaviour of `test_dct.py`: `maybe_skip` exits 77 when
scipy is unavailable; a malformed `VV_PY_RTOL`/`VV_PY_ATOL` raises
`ValueError` (exit 1); subject failure (`check_output`) and tolerance
violations raise (exit 1); otherwise 0. -/
def dct_exit (scipy_ok rtol_ok subject_ok cmp_ok : Bool) : ℕ :=
  if scipy_ok = false then SKIP_CODE
  else if rtol_ok = false then 1
  else if subject_ok = false then 1
  else if cmp_ok then 0 else 1

/-- Embeds the exit behaviour of `test_framing.py`: exit `SKIP_CODE` when
numpy/scipy or librosa is unavailable; `main` catches every exception of the
test body and returns 1; otherwise 0. -/
def framing_exit (deps librosa_ok body_ok : Bool) : ℕ :=
  if deps = false then SKIP_CODE
  else if librosa_ok = false then SKIP_CODE
  else if body_ok then 0 else 1

/-! ## Text exchange write sites -/

/-- A numeric output format used when writing an exchange artifact:
`printf`-style `%.{prec}g` (significant digits), `%.{prec}f` (digits after
the decimal point), or Python `str(float(v))` (shortest round-tripping
representation, exact to the full 17 significant digits of a double). -/
inductive NumFmt : Type
  | g : ℕ → NumFmt
  | f : ℕ → NumFmt
  | pyStr : NumFmt
deriving DecidableEq

/-- A write of sample values into a text exchange artifact. -/
structure WriteSite where
  driver : String
  fmt : NumFmt
deriving DecidableEq

/-- Every sample-value write into a text exchange artifact performed by the
drivers: `np.savetxt(..., fmt='%.8g')` in `test_czt.py` (twice),
`test_fft.py` (three times), `test_filters.py` (FIR and IIR inputs),
`test_resampler.py` and `test_stft.py`; `str(float(v))` on the stats stdin
and the f-string of `float(v)` in `test_dct.py`; and `np.savetxt(f, signal,
fmt='%.6f')` in `test_framing.py::test_fetch_frame_vs_librosa`. -/
def write_sites : List WriteSite :=
  [⟨"test_czt:complex_infile", .g 8⟩, ⟨"test_czt:real_infile", .g 8⟩,
   ⟨"test_fft:c2c_infile", .g 8⟩, ⟨"test_fft:r2c_infile", .g 8⟩,
   ⟨"test_fft:c2r_infile", .g 8⟩,
   ⟨"test_filters:fir_infile", .g 8⟩, ⟨"test_filters:iir_infile", .g 8⟩,
   ⟨"test_resampler:infile", .g 8⟩, ⟨"test_stft:infile", .g 8⟩,
   ⟨"test_stats:stdin", .pyStr⟩, ⟨"test_dct:infile", .pyStr⟩,
   ⟨"test_framing:signal_file", .f 6⟩]

/-- The number of significant digits a format retains for a nonzero value
`v`: `%.{p}g` retains `p`, `str(float(v))` round-trips a double exactly
(17), and `%.{p}f` retains `⌊log₁₀ |v|⌋ + 1 + p` digits (clamped below at
0) — for `|v| < 1` the leading decimal zeros consume precision. -/
def fmtSigDigits : NumFmt → ℚ → ℤ
  | .g p, _ => p
  | .pyStr, _ => 17
  | .f p, v => max 0 (Int.log 10 |v| + 1 + (p : ℤ))

/-! ## DCT driver tolerances (`test_dct.py`) -/

/-- Embeds `float(os.environ.get(name) or default)` of `test_dct.py`:
absent or empty values give the default, a non-empty unparsable value makes
`float` raise `ValueError`. -/
def envGetOr (env : Env) (name : String) (default : ℚ) : Except PyError ℚ :=
  match env name with
  | none => .ok default
  | some v =>
      if v = "" then .ok default
      else match parseFloat v with
        | some q => .ok q
        | none => .error .valueError

/-- Embeds the tolerance reads of `test_dct.py::main` (lines 40–41);
a raised `ValueError` propagates. -/
def dct_tolerances (env : Env) : Except PyError (ℚ × ℚ) :=
  match envGetOr env "VV_PY_RTOL" (1e-6 : ℚ) with
  | .error e => .error e
  | .ok rtol =>
      match envGetOr env "VV_PY_ATOL" (1e-6 : ℚ) with
      | .error e => .error e
      | .ok atol => .ok (rtol, atol)

/-- The tolerance pair every `assert_allclose` of the DCT round-trip loop is
called with: the `rtol` read above, but the literal `atol=1e-4` — the
`VV_PY_ATOL` value read by the driver is discarded. -/
def dct_assert_tolerances (env : Env) : Except PyError (ℚ × ℚ) :=
  match dct_tolerances env with
  | .error e => .error e
  | .ok t => .ok (t.1, (1e-4 : ℚ))

/-! ## Helper lemmas -/

/-- Rational ceiling of a quotient of naturals is ceiling division. -/
theorem ceil_div_toNat (s h : ℕ) (hh : 0 < h) :
    (⌈(s : ℚ) / (h : ℚ)⌉).toNat = (s + h - 1) / h := by
  have hq : (0 : ℚ) < (h : ℚ) := by exact_mod_cast hh
  rw [Int.ceil_toNat]
  apply le_antisymm
  · rw [Nat.ceil_le, div_le_iff₀ hq]
    have hs : s ≤ h * ((s + h - 1) / h) := by
      have := le_smul_ceilDiv (α := ℕ) (β := ℕ) (b := s) hh
      simpa [smul_eq_mul] using this
    calc (s : ℚ) ≤ ((h * ((s + h - 1) / h) : ℕ) : ℚ) := by exact_mod_cast hs
      _ = ((s + h - 1) / h : ℕ) * (h : ℚ) := by push_cast; ring
  · rw [show (s + h - 1) / h = s ⌈/⌉ h from rfl, ceilDiv_le_iff_le_mul hh]
    have h1 := Nat.le_ceil ((s : ℚ) / (h : ℚ))
    rw [div_le_iff₀ hq] at h1
    exact_mod_cast (by linarith : (s : ℚ) ≤ (h : ℚ) * (⌈(s : ℚ) / (h : ℚ)⌉₊ : ℚ))

/-- The centered frame count evaluates to ceiling division. -/
theorem n_frames_centered_eq (s f h : ℕ) (hh : 0 < h) :
    n_frames_librosa s f h true = (s + h - 1) / h := by
  unfold n_frames_librosa
  simpa using ceil_div_toNat s h hh

/-- `getD` of a map over `List.range` evaluates the function. -/
theorem getD_map_range (f : ℕ → ℚ) (n k : ℕ) (hk : k < n) (d : ℚ) :
    ((List.range n).map f).getD k d = f k := by
  rw [List.getD_eq_getElem?_getD, List.getElem?_map, List.getElem?_range hk]
  rfl

/-- The sum of an elementwise product of two lists as an indexed sum. -/
theorem sum_zipWith_mul (a b : List ℚ) :
    (a.zipWith (· * ·) b).sum =
      ∑ i in Finset.range (min a.length b.length), a.getD i 0 * b.getD i 0 := by
  induction a generalizing b with
  | nil => simp
  | cons x xs ih =>
      cases b with
      | nil => simp
      | cons y ys =>
          simp only [List.zipWith_cons_cons, List.sum_cons, List.length_cons,
            Nat.succ_min_succ]
          rw [ih ys, Finset.sum_range_succ']
          simp [List.getD_cons_succ, List.getD_cons_zero, add_comm]

/-- `getD` through `List.take` below the cut. -/
theorem getD_take (x : List ℚ) (m i : ℕ) (h : i < m) :
    (x.take m).getD i 0 = x.getD i 0 := by
  rw [List.getD_eq_getElem?_getD, List.getElem?_take, if_pos h, ← List.getD_eq_getElem?_getD]

/-- `getD` through `List.drop`. -/
theorem getD_drop (x : List ℚ) (k i : ℕ) :
    (x.drop k).getD i 0 = x.getD (k + i) 0 := by
  rw [List.getD_eq_getElem?_getD, List.getElem?_drop, ← List.getD_eq_getElem?_getD]

/-- The reference length is the embedded `expect` value. -/
theorem resampleRef_length (x : List ℚ) :
    (resampleRef x).length = (resampleExpect x.length).toNat := by
  simp [resampleRef]

/-- Elementwise characterization of the `allclose` comparator. -/
theorem allclose_iff (a b : List ℚ) (rtol atol : ℚ) :
    allclose a b rtol atol = true ↔
      ∀ i < min a.length b.length,
        |a.getD i 0 - b.getD i 0| ≤ atol + rtol * |b.getD i 0| := by
  induction a generalizing b with
  | nil => simp [allclose]
  | cons x xs ih =>
      cases b with
      | nil => simp [allclose]
      | cons y ys =>
          rw [show allclose (x :: xs) (y :: ys) rtol atol =
            (decide (|x - y| ≤ atol + rtol * |y|) && allclose xs ys rtol atol) from rfl]
          rw [Bool.and_eq_true, decide_eq_true_eq, ih ys]
          constructor
          · rintro ⟨h0, hrest⟩ i hi
            cases i with
            | zero => simpa using h0
            | succ j =>
                have hj : j < min xs.length ys.length := by
                  simp only [List.length_cons, Nat.succ_min_succ] at hi
                  omega
                simpa using hrest j hj
          · intro h
            refine ⟨by simpa using h 0 (by simp [Nat.succ_min_succ]), fun j hj => ?_⟩
            have := h (j + 1) (by simp only [List.length_cons, Nat.succ_min_succ]; omega)
            simpa using this

/-- `allclose` on two truncated prefixes, elementwise on the originals. -/
theorem allclose_take_take (a b : List ℚ) (L : ℕ) (hA : L ≤ a.length)
    (hB : L ≤ b.length) (rtol atol : ℚ) :
    allclose (a.take L) (b.take L) rtol atol = true ↔
      ∀ i < L, |a.getD i 0 - b.getD i 0| ≤ atol + rtol * |b.getD i 0| := by
  rw [allclose_iff]
  have hmin : min (a.take L).length (b.take L).length = L := by
    simp only [List.length_take]
    omega
  rw [hmin]
  constructor
  · intro h i hi
    have := h i hi
    rwa [getD_take _ _ _ hi, getD_take _ _ _ hi] at this
  · intro h i hi
    rw [getD_take _ _ _ hi, getD_take _ _ _ hi]
    exact h i hi

/-- The convolution value at output index `n`. -/
def convAt (b cx : List ℚ) (n : ℕ) : ℚ :=
  ∑ k in Finset.range b.length, if k ≤ n then b.getD k 0 * cx.getD (n - k) 0 else 0

/-- The output sample computed by one `lfilterGo` step with denominator
`[1]` is the convolution of `b` with the consumed input at the newest
index. -/
theorem yn_eq_convAt (b xrev rest : List ℚ) (xn : ℚ) :
    ∑ k in Finset.range b.length, b.getD k 0 * (xn :: xrev).getD k 0 =
      convAt b (xrev.reverse ++ (xn :: rest)) xrev.length := by
  unfold convAt
  refine Finset.sum_congr rfl (fun k _ => ?_)
  have hsplit : xrev.reverse ++ (xn :: rest) = (xn :: xrev).reverse ++ rest := by
    rw [List.reverse_cons, List.append_assoc, List.singleton_append]
  by_cases hkn : k ≤ xrev.length
  · rw [if_pos hkn, hsplit]
    congr 1
    rw [List.getD_eq_getElem?_getD, List.getD_eq_getElem?_getD]
    rw [List.getElem?_append_left
      (by simp only [List.length_reverse, List.length_cons]; omega)]
    rw [List.getElem?_reverse (by simp only [List.length_cons]; omega)]
    have hidx : (xn :: xrev).length - 1 - (xrev.length - k) = k := by
      simp only [List.length_cons]
      omega
    rw [hidx]
  · rw [if_neg hkn]
    have hz : (xn :: xrev).getD k 0 = 0 := by
      rw [List.getD_eq_getElem?_getD,
        List.getElem?_eq_none (by simp only [List.length_cons]; omega)]
      rfl
    rw [hz, mul_zero]

/-- Unrolling `lfilterGo` with denominator `[1]`: the outputs already
produced, then the convolution of `b` with the full input at the remaining
output indices. -/
theorem lfilterGo_one_eq (b : List ℚ) (rest : List ℚ) :
    ∀ (xrev yrev : List ℚ),
      lfilterGo b [1] xrev yrev rest =
        yrev.reverse ++
          (List.range' xrev.length rest.length).map (convAt b (xrev.reverse ++ rest)) := by
  induction rest with
  | nil => intro xrev yrev; simp [lfilterGo]
  | cons xn rest ih =>
      intro xrev yrev
      have hstep : lfilterGo b [1] xrev yrev (xn :: rest) =
          lfilterGo b [1] (xn :: xrev)
            ((((∑ k in Finset.range b.length, b.getD k 0 * (xn :: xrev).getD k 0) -
              ∑ k in Finset.range (([1] : List ℚ).length - 1),
                ([1] : List ℚ).getD (k + 1) 0 * yrev.getD k 0) /
              ([1] : List ℚ).getD 0 1) :: yrev) rest := rfl
      rw [hstep]
      rw [show (([1] : List ℚ).length - 1) = 0 from rfl]
      rw [Finset.range_zero, Finset.sum_empty, sub_zero]
      rw [show (([1] : List ℚ).getD 0 1) = 1 from rfl, div_one]
      rw [ih]
      rw [yn_eq_convAt b xrev rest xn]
      rw [show (xn :: xrev).reverse ++ rest = xrev.reverse ++ (xn :: rest) by
        rw [List.reverse_cons, List.append_assoc, List.singleton_append]]
      rw [List.reverse_cons, List.append_assoc, List.singleton_append]
      rw [show (xn :: rest).length = rest.length + 1 from rfl]
      rw [List.range'_succ, List.map_cons]
      rw [show (xn :: xrev).length = xrev.length + 1 from rfl]

/-- `scipy.signal.lfilter` with denominator `[1]` is direct convolution. -/
theorem lfilter_one_denominator (b x : List ℚ) : lfilter b [1] x = lfilterFIR b x := by
  unfold lfilter
  rw [lfilterGo_one_eq]
  simp only [List.reverse_nil, List.nil_append, List.length_nil]
  rw [← List.range_eq_range']
  rfl

/-! ## Claim theorems -/

/-- Claim C7: for every `(signal_len, frame_len, hop_len)`, the non-centered
frame count is `0` when `signal_len < frame_len` and otherwise
`1 + (signal_len − frame_len) // hop_len`, and the centered frame count is
`⌈signal_len / hop_len⌉` (equivalently `(signal_len + hop_len − 1) //
hop_len`); in particular every row of the driver's `test_cases` table —
including `(1000, 512, 256) ↦ (2, 4)` and `(100, 256, 128) ↦ (0, 1)` —
matches the computed counts. -/
theorem n_frames_formulas :
    (∀ s f h : ℕ, 0 < h →
      n_frames_librosa s f h true = (⌈(s : ℚ) / (h : ℚ)⌉).toNat ∧
      n_frames_librosa s f h true = (s + h - 1) / h) ∧
    (∀ s f h : ℕ,
      n_frames_librosa s f h false = if s < f then 0 else 1 + (s - f) / h) ∧
    (∀ c ∈ num_frames_test_cases,
      n_frames_librosa c.signal_len c.frame_len c.hop_len false = c.expected_non_centered ∧
      n_frames_librosa c.signal_len c.frame_len c.hop_len true = c.expected_centered) := by
  refine ⟨fun s f h hh => ⟨by simp [n_frames_librosa], n_frames_centered_eq s f h hh⟩,
    fun s f h => by simp [n_frames_librosa], ?_⟩
  intro c hc
  simp only [num_frames_test_cases, List.mem_cons, List.not_mem_nil, or_false] at hc
  rcases hc with rfl | rfl | rfl | rfl | rfl | rfl <;>
    exact ⟨by rfl, by rw [n_frames_centered_eq _ _ _ (by norm_num)]; rfl⟩

/-- Witness for C7 at `(1000, 512, 256)`. -/
theorem n_frames_formulas_witness :
    0 < 256 ∧ (n_frames_librosa 1000 512 256 true = (⌈(1000 : ℚ) / (256 : ℚ)⌉).toNat ∧
      n_frames_librosa 1000 512 256 true = (1000 + 256 - 1) / 256) :=
  ⟨by norm_num, n_frames_formulas.1 1000 512 256 (by norm_num)⟩

/-- Claim C8: the Configuration Provider's float reader returns the supplied
default when the variable is absent or unparsable (never raising — it is a
total function), the boolean reader returns the default when the variable is
absent, and when the variable is set the boolean reader returns `true`
exactly when the lowercased value is one of the tokens `1`, `true`, `yes`,
`on`. -/
theorem env_reader_defaults :
    (∀ (env : Env) (name : String) (d : ℚ), env name = none → env_float env name d = d) ∧
    (∀ (env : Env) (name : String) (d : ℚ) (v : String),
      env name = some v → parseFloat v = none → env_float env name d = d) ∧
    (∀ (env : Env) (name : String) (d : Bool), env name = none → env_bool env name d = d) ∧
    (∀ (env : Env) (name : String) (d : Bool) (v : String), env name = some v →
      (env_bool env name d = true ↔ strLower v ∈ boolTokens)) := by
  refine ⟨?_, ?_, ?_, ?_⟩
  · intro env name d h; unfold env_float; rw [h]
  · intro env name d v h hv; unfold env_float; rw [h]; simp [hv]
  · intro env name d h; unfold env_bool; rw [h]
  · intro env name d v h; unfold env_bool; rw [h]; exact decide_eq_true_iff

/-- Witness for C8 with an unparsable float value. -/
theorem env_reader_defaults_witness :
    (fun (_ : String) => some "zz") "VV_PY_RTOL" = some "zz" ∧ parseFloat "zz" = none ∧
      env_float (fun _ => some "zz") "VV_PY_RTOL" 3 = 3 :=
  ⟨rfl, rfl, env_reader_defaults.2.1 (fun _ => some "zz") "VV_PY_RTOL" 3 "zz" rfl rfl⟩

/-- Claim C10: the DCT driver bypasses the Configuration Provider — a
non-empty unparsable `VV_PY_RTOL` makes it raise `ValueError` (where
`read_tolerances` would fall back to the default), and whenever the
tolerance derivation succeeds, the absolute tolerance actually applied by
its comparisons is the literal `1e-4`, not the `VV_PY_ATOL` value read. -/
theorem dct_tolerance_bypass :
    (∀ (env : Env) (v : String), env "VV_PY_RTOL" = some v → v ≠ "" →
      parseFloat v = none → dct_assert_tolerances env = .error .valueError) ∧
    (∀ (env : Env) (p : ℚ × ℚ), dct_assert_tolerances env = .ok p → p.2 = (1e-4 : ℚ)) ∧
    (∀ (dr da : ℚ) (v : String), parseFloat v = none →
      read_tolerances (fun n => if n = "VV_PY_RTOL" then some v else none) dr da = (dr, da)) := by
  refine ⟨?_, ?_, ?_⟩
  · intro env v h hne hpf
    unfold dct_assert_tolerances dct_tolerances envGetOr
    rw [h]
    simp [hne, hpf]
  · intro env p hok
    unfold dct_assert_tolerances at hok
    cases h : dct_tolerances env with
    | error e => rw [h] at hok; exact absurd hok (by simp)
    | ok t =>
        rw [h] at hok
        simp only [Except.ok.injEq] at hok
        rw [← hok]
  · intro dr da v hpf
    unfold read_tolerances env_float
    simp [hpf]

/-- Witness for C10 with `VV_PY_RTOL=abc`. -/
theorem dct_tolerance_bypass_witness :
    (fun n => if n = "VV_PY_RTOL" then some "abc" else none) "VV_PY_RTOL" = some "abc" ∧
      "abc" ≠ "" ∧ parseFloat "abc" = none ∧
      dct_assert_tolerances (fun n => if n = "VV_PY_RTOL" then some "abc" else none) =
        .error .valueError :=
  ⟨rfl, by decide, rfl,
    dct_tolerance_bypass.1 (fun n => if n = "VV_PY_RTOL" then some "abc" else none)
      "abc" rfl (by decide) rfl⟩

/-- Claim C6 counterexample: with every dependency available (`deps =
true`), a subject executable that itself exits with status 77 makes
`test_stats.py` exit with status 77 (`sys.exit(proc.returncode)`), so a
condition other than a missing reference package — a subject-executable
failure — produces exit status 77. -/
theorem stats_exit_77_without_missing_dep :
    stats_exit true 77 true = SKIP_CODE ∧ (77 : ℕ) ≠ 0 := by decide

/-- Claim C6 amended: the czt/fft/filters/resampler/stft drivers and the
DCT driver exit 77 exactly when a required reference package fails to
import, and the framing driver exactly when numpy/scipy or librosa does;
the stats driver exits 77 exactly when numpy/scipy is unavailable **or**
the subject process itself returned 77, because it propagates the subject's
return code unchanged. -/
theorem exit_77_characterization :
    (∀ deps subject_ok parse_ok cmp_ok : Bool,
      czt_exit deps subject_ok parse_ok cmp_ok = SKIP_CODE ↔ deps = false) ∧
    (∀ scipy_ok rtol_ok subject_ok cmp_ok : Bool,
      dct_exit scipy_ok rtol_ok subject_ok cmp_ok = SKIP_CODE ↔ scipy_ok = false) ∧
    (∀ deps librosa_ok body_ok : Bool,
      framing_exit deps librosa_ok body_ok = SKIP_CODE ↔
        deps = false ∨ librosa_ok = false) ∧
    (∀ (deps : Bool) (rc : ℕ) (cmp_ok : Bool),
      stats_exit deps rc cmp_ok = SKIP_CODE ↔ deps = false ∨ rc = SKIP_CODE) := by
  refine ⟨by decide, by decide, by decide, ?_⟩
  intro deps rc cmp_ok
  cases deps with
  | false => simp [stats_exit]
  | true =>
      simp only [stats_exit, SKIP_CODE, Bool.true_eq_false, false_or, if_neg]
      by_cases h : rc = 0
      · subst h; cases cmp_ok <;> simp
      · simp [h]

/-- Claim C9 counterexample: the framing driver's write site uses
`fmt='%.6f'`, and already at the sample value `1/2` that format retains
only 6 significant digits, not at least 8. -/
theorem framing_fmt_below_8_digits :
    (⟨"test_framing:signal_file", NumFmt.f 6⟩ : WriteSite) ∈ write_sites ∧
      fmtSigDigits (NumFmt.f 6) (1 / 2) = 6 ∧
      ¬ (8 : ℤ) ≤ fmtSigDigits (NumFmt.f 6) (1 / 2) := by
  have h1 : Int.log 10 |(1 / 2 : ℚ)| = -1 := by
    rw [abs_of_pos (by norm_num), Int.log_of_right_le_one 10 (by norm_num)]
    rw [show ((1 : ℚ) / 2)⁻¹ = 2 by norm_num]
    rw [show ⌈(2 : ℚ)⌉₊ = 2 by norm_num]
    rw [Nat.clog_eq_one (by norm_num) (by norm_num)]
    rfl
  refine ⟨by decide, ?_, ?_⟩ <;> simp only [fmtSigDigits, h1] <;> decide

/-- Claim C9 amended: every exchange-artifact write site except the framing
driver's (`%.8g` everywhere else, full-precision `str(float(v))` in the
stats and DCT drivers) retains at least 8 significant digits for every
value; the framing driver's `%.6f` retains at most 7 significant digits for
every value of magnitude below 10 (in particular for its whole test signal,
a sinusoid sum of amplitude below 2). -/
theorem write_sites_precision :
    (∀ site ∈ write_sites, site.driver ≠ "test_framing:signal_file" →
      ∀ v : ℚ, (8 : ℤ) ≤ fmtSigDigits site.fmt v) ∧
    (∀ v : ℚ, |v| < 10 → fmtSigDigits (NumFmt.f 6) v ≤ 7) := by
  constructor
  · intro site hs hne v
    simp only [write_sites, List.mem_cons, List.not_mem_nil, or_false] at hs
    rcases hs with rfl | rfl | rfl | rfl | rfl | rfl | rfl | rfl | rfl | rfl | rfl | rfl <;>
      first
        | exact absurd rfl hne
        | norm_num [fmtSigDigits]
  · intro v hv
    have hlog : Int.log 10 |v| ≤ 0 := by
      rcases eq_or_ne v 0 with rfl | hv0
      · simp
      · by_contra hlt
        push_neg at hlt
        have habs : (0 : ℚ) < |v| := abs_pos.mpr hv0
        have h10 : (10 : ℚ) ^ (1 : ℤ) ≤ (10 : ℚ) ^ Int.log 10 |v| :=
          zpow_le_zpow_right₀ (by norm_num) hlt
        have hself : ((10 : ℕ) : ℚ) ^ Int.log 10 |v| ≤ |v| :=
          Int.zpow_log_le_self (by norm_num) habs
        have : (10 : ℚ) ≤ |v| := by
          calc (10 : ℚ) = (10 : ℚ) ^ (1 : ℤ) := by norm_num
            _ ≤ (10 : ℚ) ^ Int.log 10 |v| := h10
            _ ≤ |v| := by exact_mod_cast hself
        linarith
    simp only [fmtSigDigits]
    omega

/-- Witness for C9 at the chirp-Z driver's `%.8g` write site. -/
theorem write_sites_precision_witness :
    (⟨"test_czt:complex_infile", NumFmt.g 8⟩ : WriteSite) ∈ write_sites ∧
      "test_czt:complex_infile" ≠ "test_framing:signal_file" ∧
      (8 : ℤ) ≤ fmtSigDigits (NumFmt.g 8) 5 :=
  ⟨by decide, by decide,
    write_sites_precision.1 ⟨"test_czt:complex_infile", NumFmt.g 8⟩ (by decide) (by decide) 5⟩

/-- Claim C1 counterexample: on the signal `x = [1, 1]` (`N = 2`) the
driver's reference gives `r[1] = mean([x₀·x₁]) = 1`, whereas the claimed
biased estimator with divisor `N` gives `r[1] = 1/2` — the two disagree. -/
theorem stats_ref_not_biased :
    stats_ref [1, 1] = [1, 1] ∧ biasedAutocorr [1, 1] = [1, 1 / 2] ∧
      stats_ref [1, 1] ≠ biasedAutocorr [1, 1] := by
  refine ⟨?_, ?_, ?_⟩ <;>
    simp [stats_ref, biasedAutocorr, npMean, List.range_succ, Finset.sum_range_succ]

/-- Claim C1 amended: the reference autocorrelation of `test_stats.py` is
the **unbiased** estimator — for every lag `k < N` it equals
`(Σ_{i<N−k} x[i]·x[i+k]) / (N − k)`, dividing by the overlap length `N − k`
rather than by `N`; at lag `0` (where the overlap is all of `x`) it equals
the mean of the squared samples. -/
theorem stats_ref_unbiased (x : List ℚ) (k : ℕ) (hk : k < x.length) :
    (stats_ref x).getD k 0 =
      (∑ i in Finset.range (x.length - k), x.getD i 0 * x.getD (i + k) 0) /
        ((x.length - k : ℕ) : ℚ) ∧
    (stats_ref x).getD 0 0 =
      (∑ i in Finset.range x.length, x.getD i 0 * x.getD i 0) / ((x.length : ℕ) : ℚ) := by
  have main : ∀ k', k' < x.length →
      (stats_ref x).getD k' 0 =
        (∑ i in Finset.range (x.length - k'), x.getD i 0 * x.getD (i + k') 0) /
          ((x.length - k' : ℕ) : ℚ) := by
    intro k' hk'
    unfold stats_ref
    rw [getD_map_range _ _ _ hk']
    unfold npMean
    have hlen : min (x.take (x.length - k')).length (x.drop k').length = x.length - k' := by
      simp [List.length_take, List.length_drop]
    rw [sum_zipWith_mul, List.length_zipWith, hlen]
    congr 1
    refine Finset.sum_congr rfl (fun i hi => ?_)
    rw [Finset.mem_range] at hi
    rw [getD_take _ _ _ hi, getD_drop, Nat.add_comm k' i]
  have h0 := main 0 (Nat.pos_of_ne_zero (by omega))
  simp only [Nat.sub_zero, Nat.add_zero] at h0
  exact ⟨main k hk, h0⟩

/-- Witness for C1 on `x = [1, 1]`, `k = 1`. -/
theorem stats_ref_unbiased_witness :
    1 < ([1, 1] : List ℚ).length ∧
      ((stats_ref [1, 1]).getD 1 0 =
        (∑ i in Finset.range (([1, 1] : List ℚ).length - 1),
          ([1, 1] : List ℚ).getD i 0 * ([1, 1] : List ℚ).getD (i + 1) 0) /
          ((([1, 1] : List ℚ).length - 1 : ℕ) : ℚ) ∧
      (stats_ref [1, 1]).getD 0 0 =
        (∑ i in Finset.range ([1, 1] : List ℚ).length,
          ([1, 1] : List ℚ).getD i 0 * ([1, 1] : List ℚ).getD i 0) /
          ((([1, 1] : List ℚ).length : ℕ) : ℚ)) :=
  ⟨by norm_num, stats_ref_unbiased [1, 1] 1 (by norm_num)⟩

/-- Claim C4 counterexample: for the input `x = [0, 0]` (`n = 2`) the
expected length is `floor((2−1)·2)+1 = 3`, yet the driver's check passes on
a subject output of only one sample — the comparison truncates both sides
to `min(len(ref), len(y))` and never asserts the output length. -/
theorem resample_check_ignores_length :
    resampleCheck [0] [0, 0] (5 / 100) (5 / 100) = true ∧
      (resampleRef [0, 0]).length = 3 ∧ ([0] : List ℚ).length = 1 := by
  refine ⟨?_, by rw [resampleRef_length]; rfl, by rfl⟩
  simp [resampleCheck, resampleRef, resampleExpect, allclose, npClip, List.range_succ]
  norm_num

/-- Claim C4 amended: the reference sequence itself has exactly
`floor((n−1)·2)+1 = 2n − 1` samples (clamped linear interpolation at the
half-integer source indices), but the driver's check passes **iff** the
first `min(len(ref), len(y))` samples agree within `(rtol, atol)` — it
constrains no sample beyond that prefix and never constrains the subject
output's length. -/
theorem resample_check_characterization (x y : List ℚ) (rtol atol : ℚ) :
    (resampleRef x).length = (2 * ((x.length : ℤ) - 1) + 1).toNat ∧
    (resampleRef x).length = 2 * x.length - 1 ∧
    (resampleCheck y x rtol atol = true ↔
      ∀ i < min (resampleRef x).length y.length,
        |y.getD i 0 - (resampleRef x).getD i 0| ≤
          atol + rtol * |(resampleRef x).getD i 0|) := by
  refine ⟨resampleRef_length x, ?_, ?_⟩
  · rw [resampleRef_length]
    unfold resampleExpect
    omega
  · simp only [resampleCheck]
    exact allclose_take_take y (resampleRef x) _ (Nat.min_le_right _ _) (Nat.min_le_left _ _)
      rtol atol

/-- Claim C5 counterexample, one instance per cited decoder: a single
output line with three comma-separated numeric fields — field count 3, not
the expected 2 — is decoded by `parse_complex_lines` without any error,
returning the first two fields and silently discarding the third; and the
stats driver's `np.fromstring` decoder, given a numeric line, a malformed
line and another numeric line, raises nothing and silently truncates from
the malformed line onward, returning only `[1]`. -/
theorem parse_accepts_wide_rows :
    parse_complex_lines [[some 1, some 2, some 3]] = .ok [(1, 2)] ∧
      ([some (1 : ℚ), some 2, some 3] : List (Option ℚ)).length ≠ 2 ∧
      np_fromstring [some 1, none, some 3] = [1] :=
  ⟨rfl, by decide, rfl⟩

/-- `parse_complex_lines` raises iff some field is non-numeric, there are
no lines, the rows are ragged, or the uniform field count is below 2. -/
theorem parse_complex_lines_error_iff (lines : List (List (Option ℚ))) :
    (∃ e, parse_complex_lines lines = .error e) ↔ parseRaises lines := by
  cases lines with
  | nil => exact iff_of_true ⟨.indexError, rfl⟩ (Or.inr (Or.inl rfl))
  | cons l0 ls =>
      simp only [parse_complex_lines]
      by_cases hnum : (l0 :: ls).any (fun ln => ln.any Option.isNone) = true
      · rw [if_pos hnum]
        refine iff_of_true ⟨.valueError, rfl⟩ (Or.inl ?_)
        rw [List.any_eq_true] at hnum
        obtain ⟨ln, hln, hany⟩ := hnum
        rw [List.any_eq_true] at hany
        obtain ⟨f, hf, hfn⟩ := hany
        exact ⟨ln, hln, f, hf, Option.isNone_iff_eq_none.mp hfn⟩
      · rw [if_neg hnum]
        by_cases hrect : ls.all (fun r => r.length = l0.length) = true
        · rw [if_neg (fun hC => hC hrect)]
          by_cases hw : l0.length < 2
          · rw [if_pos hw]
            exact iff_of_true ⟨.indexError, rfl⟩ (Or.inr (Or.inr (Or.inr hw)))
          · rw [if_neg hw]
            refine iff_of_false ?_ ?_
            · rintro ⟨e, he⟩
              exact absurd he (by simp)
            · rintro (h1 | h2 | h3 | h4)
              · obtain ⟨ln, hln, f, hf, rfl⟩ := h1
                exact hnum (List.any_eq_true.mpr
                  ⟨ln, hln, List.any_eq_true.mpr ⟨none, hf, rfl⟩⟩)
              · exact absurd h2 (by simp)
              · obtain ⟨ln, hln, hne⟩ := h3
                rcases List.mem_cons.mp hln with rfl | hmem
                · exact hne rfl
                · exact hne (by simpa using List.all_eq_true.mp hrect ln hmem)
              · exact hw h4
        · rw [if_pos hrect]
          refine iff_of_true ⟨.valueError, rfl⟩ (Or.inr (Or.inr (Or.inl ?_)))
          by_contra hno
          apply hrect
          rw [List.all_eq_true]
          intro r hr
          by_contra hne
          exact hno ⟨r, List.mem_cons_of_mem _ hr, by simpa using hne⟩

/-- Claim C5 amended, covering both cited decoders. The complex-line
decoder `parse_complex_lines` raises **iff** some field is non-numeric, or
there are no lines, or the rows are ragged (some line's field count differs
from the first line's), or the uniform field count is below 2 — so there a
non-numeric or ragged line is a hard error, but a uniform field count above
2 is silently accepted with the extra columns truncated away. The stats
driver's `np.fromstring` decoder never raises at all: on every input it
returns exactly the numeric prefix before the first malformed token
(`takeWhile`), so a malformed line and everything after it are silently
truncated away. -/
theorem decoder_error_characterization :
    (∀ lines : List (List (Option ℚ)),
      (∃ e, parse_complex_lines lines = .error e) ↔ parseRaises lines) ∧
    (∀ l : List (Option ℚ),
      np_fromstring l = (l.takeWhile (fun f => f.isSome)).map (fun f => f.getD 0)) ∧
    (∀ (xs : List ℚ) (rest : List (Option ℚ)),
      np_fromstring (xs.map some ++ none :: rest) = xs) := by
  refine ⟨parse_complex_lines_error_iff, ?_, ?_⟩
  · intro l
    induction l with
    | nil => rfl
    | cons f rest ih =>
        cases f with
        | none => rfl
        | some q =>
            show q :: np_fromstring rest = _
            rw [ih]
            rfl
  · intro xs rest
    induction xs with
    | nil => rfl
    | cons q qs ih =>
        show q :: np_fromstring (qs.map some ++ none :: rest) = q :: qs
        rw [ih]

/-- Claim C2 counterexample: the FIR comparison performs **two** process
invocations — a coefficient-dump invocation and the subject filter
invocation — and the subject's argument list contains the design parameters
and the input file but no reference to the dumped coefficient artifact
`tmp_fir_coeffs.txt`: the coefficient vector is not shared with the subject,
which designs its own coefficients internally from the parameters. -/
theorem fir_subject_lacks_coeff_vector :
    (fir_driver_invocations 256).length = 2 ∧
      fir_dump_invocation.exe ≠ (fir_subject_invocation 256).exe ∧
      (fir_subject_invocation 256).args =
        ["--num-taps", "33", "--cutoff", "0.25", "--win", "hann",
         "--n", "256", "--infile", "tmp_fir_in.txt"] ∧
      "tmp_fir_coeffs.txt" ∉ (fir_subject_invocation 256).args :=
  ⟨rfl, by decide, rfl, by decide⟩

/-- Claim C2 amended: the two paths share the design **parameters**, not a
coefficient vector — the subject invocation's first six arguments are
exactly the dump invocation's argument list (`--num-taps 33 --cutoff 0.25
--win hann`), the dump invocation receives no input signal, and the
reference path filters the input with the dumped vector `h` via
`lfilter(h, [1.0], x)`, which equals direct convolution-form FIR
filtering. -/
theorem fir_shared_design_parameters (n : ℕ) (h x : List ℚ) :
    (fir_subject_invocation n).args.take 6 = fir_dump_invocation.args ∧
      lookupFlag "--infile" fir_dump_invocation.args = none ∧
      lookupFlag "--num-taps" (fir_subject_invocation n).args =
        lookupFlag "--num-taps" fir_dump_invocation.args ∧
      fir_reference h x = lfilterFIR h x := by
  refine ⟨rfl, by decide, rfl, ?_⟩
  unfold fir_reference
  exact lfilter_one_denominator h x

/-- Claim C3 counterexample: the output bin count `M` is the separate `-m`
argument, not tied to the input length: the reachable invocation
`test_czt.py -n 64` (leaving `-m` at its default 32) passes `M = 32 ≠ 64 =
N` to both paths, so the claimed `M = N` does not hold of the driver's
DFT-equivalence configuration in general. -/
theorem czt_M_decoupled_from_N :
    (czt_params 64 32).M ≠ (czt_params 64 32).N ∧
      (czt_params 64 32).M = czt_default_m ∧ (czt_params 64 32).N = 64 :=
  ⟨by decide, rfl, rfl⟩

/-- Claim C3 amended: the driver's DFT-equivalence configuration passes
`A = 1` and `W = e^{i·ang}` with `ang = −2π/N` to both paths, but `M` is
the independent `-m` argument; with the default arguments (`-n 32 -m 32`,
and generally whenever `m = n`) `M = N` holds, and in that case the
chirp-Z formula `X[k] = Σₙ x[n]·A^{−n}·W^{n·k}` with these parameters is
exactly the plain N-point discrete Fourier transform
`X[k] = Σₙ x[n]·e^{−2πi·n·k/N}`. -/
theorem czt_dft_equivalence :
    ((czt_params czt_default_n czt_default_m).M =
      (czt_params czt_default_n czt_default_m).N) ∧
    (∀ n m : ℕ, (czt_params n m).Are = 1 ∧ (czt_params n m).Aim = 0 ∧
      (czt_params n m).angOverPi = -2 / (n : ℚ) ∧
      (czt_params n m).M = m ∧ (czt_params n m).N = n) ∧
    (∀ n m : ℕ,
      Complex.exp (((czt_params n m).angOverPi : ℂ) * (Real.pi : ℂ) * Complex.I) =
        Complex.exp (-(2 * (Real.pi : ℂ) * Complex.I) / (n : ℂ))) ∧
    (∀ x : List ℂ,
      czt x x.length (Complex.exp (-(2 * (Real.pi : ℂ) * Complex.I) / (x.length : ℂ))) 1 =
        dftc x (fun j =>
          Complex.exp (-(2 * (Real.pi : ℂ) * Complex.I) * (j : ℂ) / (x.length : ℂ)))) := by
  refine ⟨rfl, fun n m => ⟨rfl, rfl, rfl, rfl, rfl⟩, fun n m => ?_, fun x => ?_⟩
  · congr 1
    show (((-2 : ℚ) / (n : ℚ) : ℚ) : ℂ) * (Real.pi : ℂ) * Complex.I =
      -(2 * (Real.pi : ℂ) * Complex.I) / (n : ℂ)
    push_cast
    ring_nf
  · unfold czt dftc
    refine List.map_congr_left (fun k _ => ?_)
    refine Finset.sum_congr rfl (fun j _ => ?_)
    rw [inv_one, one_pow, mul_one, ← Complex.exp_nat_mul]
    congr 1
    push_cast
    ring_nf

end VVDSP
